import Mathlib

/-!
# Verification of the Countdown Timer state machine (`src/main.py`)

Shallow embedding of the countdown-timer application's core logic.
The program keeps three plain data fields on the window object:
`_total_seconds : int`, `_remaining : int`, `_running : bool`.
We add two ghost fields tracking the completion notification
(`messagebox.showinfo` in `_on_finished`): a `finished` flag, and
`finishSignals`, the number of completion alerts shown so far.

Machine integers are modelled as `ℤ` (Python integers are unbounded).
The three spinbox string fields are abstracted by `Field`: a string is
empty, parses as an integer `n` via `int(...)`, or makes `int(...)`
raise `ValueError`.
-/

set_option autoImplicit false

/-- Abstraction of one spinbox string value as consumed by
`int(x or 0)` inside `CountdownTimer._parse_time`:
`empty` is `""` (falsy, so `int(0)` is taken), `num n` is a string that
`int` parses to the integer `n`, and `malformed` is a non-empty string on
which `int` raises `ValueError`. -/
inductive SpinField where
  | empty : SpinField
  | num : ℤ → SpinField
  | malformed : SpinField
deriving DecidableEq, Repr

/-- `int(x or 0)` applied to one field, `none` when `ValueError` is raised. -/
def SpinField.toInt : SpinField → Option ℤ
  | .empty => some 0
  | .num n => some n
  | .malformed => none

/-- `max(0, min(v, hi))` — the per-field clamp used in `_parse_time`. -/
def clamp (hi v : ℤ) : ℤ := max 0 (min v hi)

/-- `CountdownTimer._parse_time` (src/main.py lines 176-185): the three
conversions and clamps run inside a single `try`; any `ValueError`
(a malformed field) makes the whole function return `0`. -/
def parse_time (h_str m_str s_str : SpinField) : ℤ :=
  match h_str.toInt, m_str.toInt, s_str.toInt with
  | some h, some m, some s => clamp 23 h * 3600 + clamp 59 m * 60 + clamp 59 s
  | _, _, _ => 0

/-- The mutable state of the application: `_total_seconds`, `_remaining`
and `_running` from `CountdownTimer.__init__`, plus the two ghost fields
recording the completion notification of `_on_finished`. -/
structure TimerState where
  total : ℤ
  remaining : ℤ
  running : Bool
  finished : Bool
  finishSignals : ℕ
deriving DecidableEq, Repr

/-- State at construction time (`__init__`, lines 61-63): both counters 0,
not running. -/
def initState : TimerState :=
  { total := 0, remaining := 0, running := false, finished := false,
    finishSignals := 0 }

/-- The spec's four-state status, derived from the program's fields:
`_running = True` is Running; stopped with `_remaining > 0` is Paused;
stopped at 0 is Finished when the completion branch of `_tick`
(lines 258-260) has fired and not been superseded, else Idle. -/
inductive Status where
  | Idle : Status
  | Running : Status
  | Paused : Status
  | Finished : Status
deriving DecidableEq, Repr

/-- Derived status of a state. -/
def status (s : TimerState) : Status :=
  if s.running then .Running
  else if 0 < s.remaining then .Paused
  else if s.finished then .Finished
  else .Idle

/-- `CountdownTimer._on_start_pause` (lines 211-238), the Start/Pause/Resume
button handler. Returns the new state and whether the "No time set" warning
dialog was shown. When `_running`: pause. Otherwise, when `_remaining == 0`:
fresh start — read and parse the spinboxes, warn and return unchanged if the
total is 0, else set `_total_seconds` and `_remaining`. In both remaining
non-warning branches set `_running = True` (spawning the tick thread). -/
def on_start_pause (h_str m_str s_str : SpinField) (s : TimerState) :
    TimerState × Bool :=
  if s.running then
    ({ s with running := false }, false)
  else if s.remaining = 0 then
    let total := parse_time h_str m_str s_str
    if total = 0 then (s, true)
    else
      ({ s with total := total, remaining := total, running := true, finished := false }, false)
  else
    ({ s with running := true, finished := false }, false)

/-- `CountdownTimer._on_reset` (lines 240-247): stop the loop
(`_running = False`), zero both counters. (The spinbox variables are also
reset to "00"; they are inputs to `on_start_pause` here, not state.) -/
def on_reset (s : TimerState) : TimerState :=
  { total := 0, remaining := 0, running := false, finished := false,
    finishSignals := s.finishSignals }

/-- Lines 254-256 of `_tick`: after the one-second sleep the thread re-reads
`_running` and decrements `_remaining` only if it is still true — the guard
that sits immediately before the mutation. -/
def sleepDecrement (running : Bool) (remaining : ℤ) : ℤ :=
  if running then remaining - 1 else remaining

/-- One pass of the background thread body `CountdownTimer._tick`
(lines 250-260) covering one elapsed time unit, with no interference during
the sleep (the value of `_running` read after the sleep is the one read at
the loop head). If the loop condition `_running and _remaining > 0` holds,
the thread sleeps and decrements; when the decrement reaches 0 the loop
exits and, `_running` still being true, the finish branch fires: it clears
`_running` and shows the completion alert exactly once. If `_running` is
false the thread is not looping and the elapsed time unit changes nothing. -/
def tick (s : TimerState) : TimerState :=
  if s.running ∧ 0 < s.remaining then
    let r := sleepDecrement s.running s.remaining
    if 0 < r then { s with remaining := r }
    else
      { s with remaining := r, running := false, finished := true, finishSignals := s.finishSignals + 1 }
  else if s.running then
    { s with running := false, finished := true, finishSignals := s.finishSignals + 1 }
  else s

/-- Number of progress dots: `for _ in range(10)` in `_build_ui`
(line 159), so `len(self._dots) = 10`. -/
def NUM_DOTS : ℤ := 10

/-- Python's built-in `round` on an exact rational: the nearest integer,
ties broken to the even neighbour. -/
def pythonRound (q : ℚ) : ℤ :=
  if Int.fract q < 1/2 then ⌊q⌋
  else if 1/2 < Int.fract q then ⌊q⌋ + 1
  else if ⌊q⌋ % 2 = 0 then ⌊q⌋ else ⌊q⌋ + 1

/-- `CountdownTimer._update_dots` (lines 201-208): the number of lit dots is
`round((remaining / total) * len(self._dots))` when `total ≠ 0`, else 0
(arithmetic modelled exactly over `ℚ`; the concrete ratios the claims use
are exactly representable as Python floats). -/
def update_dots_lit (remaining total : ℤ) : ℤ :=
  if total = 0 then 0
  else pythonRound ((remaining : ℚ) / (total : ℚ) * (NUM_DOTS : ℚ))

/-- Executable counterpart of `pythonRound` on the fraction `a / b` for
`0 < b`, written with integer euclidean division so that the kernel can
evaluate it. -/
def roundHalfEvenPos (a b : ℤ) : ℤ :=
  if 2 * (a % b) < b then a / b
  else if b < 2 * (a % b) then a / b + 1
  else if (a / b) % 2 = 0 then a / b else a / b + 1

/-- `roundHalfEvenPos` extended to any `b` (0 at `b = 0`, normalising a
negative denominator away). -/
def roundHalfEven (a b : ℤ) : ℤ :=
  if b = 0 then 0
  else if b < 0 then roundHalfEvenPos (-a) (-b)
  else roundHalfEvenPos a b

/-- One transition of the application: a user action on the UI thread
(Start/Pause button, Reset button) or one elapsed time unit of the
background tick loop. -/
inductive Step : TimerState → TimerState → Prop where
  | startPause (h_str m_str s_str : SpinField) (s : TimerState) :
      Step s (on_start_pause h_str m_str s_str s).1
  | reset (s : TimerState) : Step s (on_reset s)
  | tick (s : TimerState) : Step s (tick s)

/-- States reachable from the freshly constructed window. -/
inductive Reachable : TimerState → Prop where
  | init : Reachable initState
  | step {s t : TimerState} : Reachable s → Step s t → Reachable t

/-! ## Arithmetic helper lemmas -/

theorem floor_intCast_div (a b : ℤ) (hb : 0 < b) :
    ⌊(a : ℚ) / (b : ℚ)⌋ = a / b := by
  have h := Rat.floor_intCast_div_natCast a b.toNat
  have hbn : ((b.toNat : ℤ)) = b := Int.toNat_of_nonneg hb.le
  rw [← hbn]
  exact_mod_cast h

theorem fract_intCast_div (a b : ℤ) (hb : 0 < b) :
    Int.fract ((a : ℚ) / (b : ℚ)) = ((a % b : ℤ) : ℚ) / (b : ℚ) := by
  have hbQ : ((b : ℚ)) ≠ 0 := by
    exact_mod_cast hb.ne'
  simp only [Int.fract, floor_intCast_div a b hb]
  rw [Int.emod_def]
  push_cast
  field_simp

theorem roundHalfEvenPos_eq (a b : ℤ) (hb : 0 < b) :
    roundHalfEvenPos a b = pythonRound ((a : ℚ) / (b : ℚ)) := by
  have hbQ : (0 : ℚ) < (b : ℚ) := by exact_mod_cast hb
  have c1 : Int.fract ((a : ℚ) / (b : ℚ)) < 1/2 ↔ 2 * (a % b) < b := by
    rw [fract_intCast_div a b hb, div_lt_iff₀ hbQ]
    constructor
    · intro h
      have h2 : ((2 * (a % b) : ℤ) : ℚ) < ((b : ℤ) : ℚ) := by push_cast; linarith
      exact_mod_cast h2
    · intro h
      have h2 : ((2 * (a % b) : ℤ) : ℚ) < ((b : ℤ) : ℚ) := by exact_mod_cast h
      push_cast at h2; linarith
  have c2 : 1/2 < Int.fract ((a : ℚ) / (b : ℚ)) ↔ b < 2 * (a % b) := by
    rw [fract_intCast_div a b hb, lt_div_iff₀ hbQ]
    constructor
    · intro h
      have h2 : ((b : ℤ) : ℚ) < ((2 * (a % b) : ℤ) : ℚ) := by push_cast; linarith
      exact_mod_cast h2
    · intro h
      have h2 : ((b : ℤ) : ℚ) < ((2 * (a % b) : ℤ) : ℚ) := by exact_mod_cast h
      push_cast at h2; linarith
  simp only [roundHalfEvenPos, pythonRound, floor_intCast_div a b hb, c1, c2]

theorem roundHalfEven_eq (a b : ℤ) (hb : b ≠ 0) :
    roundHalfEven a b = pythonRound ((a : ℚ) / (b : ℚ)) := by
  rcases lt_or_gt_of_ne hb with h | h
  · have hpos : 0 < -b := by omega
    simp only [roundHalfEven, if_neg hb, if_pos h]
    rw [roundHalfEvenPos_eq (-a) (-b) hpos]
    congr 1
    push_cast
    rw [neg_div_neg_eq]
  · simp only [roundHalfEven, if_neg hb, if_neg (by omega : ¬ b < 0)]
    exact roundHalfEvenPos_eq a b h

/-! ## State-machine helper lemmas -/

theorem status_eq_running_iff (s : TimerState) :
    status s = .Running ↔ s.running = true := by
  unfold status
  split_ifs <;> simp_all

theorem tick_not_running {s : TimerState} (h : s.running = false) :
    tick s = s := by
  simp [tick, h]

theorem tick_iterate_not_running {s : TimerState} (h : s.running = false)
    (n : ℕ) : tick^[n] s = s := by
  induction n with
  | zero => rfl
  | succ k ih => rw [Function.iterate_succ_apply, tick_not_running h, ih]

theorem tick_run_state {s : TimerState} (hrun : s.running = true)
    (hpos : 0 < s.remaining) :
    tick s = if 0 < s.remaining - 1
             then { s with remaining := s.remaining - 1 }
             else { s with remaining := s.remaining - 1, running := false, finished := true, finishSignals := s.finishSignals + 1 } := by
  rw [tick, if_pos ⟨hrun, hpos⟩]
  simp [sleepDecrement, hrun]

theorem tick_dec {s : TimerState} (hrun : s.running = true)
    (hpos : 0 < s.remaining) : (tick s).remaining = s.remaining - 1 := by
  rw [tick_run_state hrun hpos]
  split_ifs <;> rfl

theorem tick_iterate_remaining (k : ℕ) :
    ∀ s : TimerState, s.running = true → (k : ℤ) ≤ s.remaining →
    (tick^[k] s).remaining = s.remaining - k := by
  induction k with
  | zero => intro s _ _; simp
  | succ n ih =>
    intro s hrun hle
    rw [Function.iterate_succ_apply]
    have hpos : 0 < s.remaining := by push_cast at hle; omega
    rw [tick_run_state hrun hpos]
    by_cases h1 : 0 < s.remaining - 1
    · rw [if_pos h1]
      have h2 := ih { s with remaining := s.remaining - 1 } hrun
        (by push_cast at hle ⊢; omega)
      rw [h2]
      push_cast
      ring
    · rw [if_neg h1]
      have hn : n = 0 := by push_cast at hle; omega
      subst hn
      simp

theorem tick_iterate_finish (r : ℕ) :
    ∀ s : TimerState, s.running = true → s.remaining = (r : ℤ) → 0 < r →
    tick^[r] s = { total := s.total, remaining := 0, running := false, finished := true, finishSignals := s.finishSignals + 1 } := by
  induction r with
  | zero => intro s _ _ h; exact absurd h (lt_irrefl 0)
  | succ n ih =>
    intro s hrun hrem _
    rw [Function.iterate_succ_apply]
    have hpos : 0 < s.remaining := by rw [hrem]; push_cast; omega
    rw [tick_run_state hrun hpos]
    by_cases hn : 0 < n
    · have h1 : 0 < s.remaining - 1 := by rw [hrem]; push_cast; omega
      rw [if_pos h1]
      have h2 := ih { s with remaining := s.remaining - 1 } hrun
        (by rw [hrem]; push_cast; ring) hn
      exact h2
    · have hn0 : n = 0 := by omega
      subst hn0
      have hrem1 : s.remaining = 1 := by exact_mod_cast hrem
      have h1 : ¬ 0 < s.remaining - 1 := by omega
      rw [if_neg h1]
      have h2 : s.remaining - 1 = 0 := by omega
      rw [Function.iterate_zero_apply, h2]

theorem parse_time_nonneg (a b c : SpinField) : 0 ≤ parse_time a b c := by
  cases a <;> cases b <;> cases c <;>
    simp only [parse_time, SpinField.toInt, clamp] <;> omega

theorem tick_remaining_nonneg {s : TimerState} (h : 0 ≤ s.remaining) :
    0 ≤ (tick s).remaining := by
  simp only [tick, sleepDecrement]
  split_ifs <;> simp_all <;> omega

theorem on_start_pause_remaining_nonneg (hf mf sf : SpinField)
    {s : TimerState} (h : 0 ≤ s.remaining) :
    0 ≤ (on_start_pause hf mf sf s).1.remaining := by
  simp only [on_start_pause]
  split_ifs <;> simp_all [parse_time_nonneg]

theorem reachable_remaining_nonneg :
    ∀ s : TimerState, Reachable s → 0 ≤ s.remaining := by
  intro s h
  induction h with
  | init => simp [initState]
  | step hr hstep ih =>
    cases hstep with
    | startPause hf mf sf st => exact on_start_pause_remaining_nonneg hf mf sf ih
    | reset st => simp [on_reset]
    | tick st => exact tick_remaining_nonneg ih

/-! ## Claim theorems -/

/-- C1: from any state with status Running and `remaining ≥ n`, each of the
`n` loop iterations of `_tick` decreases `remaining` by exactly 1, and
`remaining` is never negative in any state reachable from the initial
one. -/
theorem tick_decrements_and_remaining_nonneg (s : TimerState) (n : ℕ)
    (hrun : status s = .Running) (hge : (n : ℤ) ≤ s.remaining) :
    (∀ k : ℕ, k ≤ n → (tick^[k] s).remaining = s.remaining - k) ∧
    (∀ t : TimerState, Reachable t → 0 ≤ t.remaining) := by
  constructor
  · intro k hk
    refine tick_iterate_remaining k s ((status_eq_running_iff s).1 hrun) ?_
    calc (k : ℤ) ≤ (n : ℤ) := by exact_mod_cast hk
      _ ≤ s.remaining := hge
  · exact reachable_remaining_nonneg

/-- C1 witness: the Running state with remaining 5 and n = 3. -/
theorem tick_decrements_and_remaining_nonneg_witness :
    status { total := 5, remaining := 5, running := true, finished := false, finishSignals := 0 } = .Running ∧
    ((3 : ℕ) : ℤ) ≤ (5 : ℤ) ∧
    (tick^[3] { total := 5, remaining := 5, running := true, finished := false, finishSignals := 0 }).remaining = 5 - ((3 : ℕ) : ℤ) ∧
    0 ≤ initState.remaining :=
  ⟨by decide, by decide,
   (tick_decrements_and_remaining_nonneg
      { total := 5, remaining := 5, running := true, finished := false, finishSignals := 0 }
      3 (by decide) (by decide)).1 3 le_rfl,
   (tick_decrements_and_remaining_nonneg
      { total := 5, remaining := 5, running := true, finished := false, finishSignals := 0 }
      3 (by decide) (by decide)).2 initState Reachable.init⟩

/-- C2: from a Running state with `remaining = r > 0`, running the loop for
`r` time units shows the completion alert exactly once — the signal count
rises by one and never rises again, status becomes Finished and remaining
0 — and concretely configure(0,0,5) + start + 5 ticks ends Finished with
remaining 0 and exactly one completion signal. -/
theorem finish_fires_exactly_once (s : TimerState) (r : ℕ)
    (hrun : s.running = true) (hrem : s.remaining = (r : ℤ)) (hpos : 0 < r) :
    (tick^[r] s).finishSignals = s.finishSignals + 1 ∧
    status (tick^[r] s) = .Finished ∧
    (tick^[r] s).remaining = 0 ∧
    (∀ m : ℕ, (tick^[m] (tick^[r] s)).finishSignals = s.finishSignals + 1) ∧
    tick^[5] (on_start_pause (.num 0) (.num 0) (.num 5) initState).1 =
      { total := 5, remaining := 0, running := false, finished := true, finishSignals := 1 } := by
  have hfin := tick_iterate_finish r s hrun hrem hpos
  refine ⟨by rw [hfin], by rw [hfin]; rfl, by rw [hfin], ?_, by decide⟩
  intro m
  rw [hfin, tick_iterate_not_running rfl m]

/-- C2 witness: the Running state with remaining 5 and r = 5. -/
theorem finish_fires_exactly_once_witness :
    ({ total := 5, remaining := 5, running := true, finished := false, finishSignals := 0 } : TimerState).running = true ∧
    ({ total := 5, remaining := 5, running := true, finished := false, finishSignals := 0 } : TimerState).remaining = ((5 : ℕ) : ℤ) ∧
    0 < 5 ∧
    (tick^[5] { total := 5, remaining := 5, running := true, finished := false, finishSignals := 0 }).finishSignals = 0 + 1 ∧
    status (tick^[5] { total := 5, remaining := 5, running := true, finished := false, finishSignals := 0 }) = .Finished :=
  ⟨by decide, by decide, by decide,
   (finish_fires_exactly_once
      { total := 5, remaining := 5, running := true, finished := false, finishSignals := 0 }
      5 (by decide) (by decide) (by decide)).1,
   (finish_fires_exactly_once
      { total := 5, remaining := 5, running := true, finished := false, finishSignals := 0 }
      5 (by decide) (by decide) (by decide)).2.1⟩

/-- C3: pressing Start/Pause while Running pauses the timer; any number of
elapsed time units afterwards leaves `remaining` unchanged, because the
decrement is guarded by re-reading `_running` immediately before the
mutation (and `sleepDecrement` with `running = false` is the identity). -/
theorem pause_freezes_remaining (s : TimerState) (hf mf sf : SpinField)
    (hrun : s.running = true) :
    (on_start_pause hf mf sf s).1.running = false ∧
    (∀ n : ℕ, (tick^[n] (on_start_pause hf mf sf s).1).remaining = s.remaining) ∧
    (∀ r : ℤ, sleepDecrement false r = r) := by
  have hp : (on_start_pause hf mf sf s).1 = { s with running := false } := by
    simp [on_start_pause, hrun]
  refine ⟨by rw [hp], ?_, fun r => rfl⟩
  intro n
  rw [hp, tick_iterate_not_running rfl n]

/-- C3 witness: pausing the Running state with remaining 7. -/
theorem pause_freezes_remaining_witness :
    ({ total := 9, remaining := 7, running := true, finished := false, finishSignals := 0 } : TimerState).running = true ∧
    (tick^[4] (on_start_pause .empty .empty .empty { total := 9, remaining := 7, running := true, finished := false, finishSignals := 0 }).1).remaining = 7 :=
  ⟨by decide,
   (pause_freezes_remaining
      { total := 9, remaining := 7, running := true, finished := false, finishSignals := 0 }
      .empty .empty .empty (by decide)).2.1 4⟩

/-- C4: pressing Start from a Paused state (not running,
`0 < remaining ≤ total`) resumes: status becomes Running, `remaining` and
`total` are kept no matter what the spinboxes hold, and the next tick
yields `remaining - 1`. -/
theorem resume_continues_from_paused_remaining (s : TimerState)
    (hf mf sf : SpinField) (hrun : s.running = false)
    (hpos : 0 < s.remaining) (hle : s.remaining ≤ s.total) :
    status (on_start_pause hf mf sf s).1 = .Running ∧
    (on_start_pause hf mf sf s).1.remaining = s.remaining ∧
    (on_start_pause hf mf sf s).1.total = s.total ∧
    (tick (on_start_pause hf mf sf s).1).remaining = s.remaining - 1 := by
  have hp : (on_start_pause hf mf sf s).1 = { s with running := true, finished := false } := by
    simp [on_start_pause, hrun, hpos.ne']
  refine ⟨by rw [hp]; rfl, by rw [hp], by rw [hp], ?_⟩
  rw [hp]
  exact tick_dec rfl hpos

/-- C4 witness: resuming the Paused state with remaining 3 of total 5. -/
theorem resume_continues_from_paused_remaining_witness :
    ({ total := 5, remaining := 3, running := false, finished := false, finishSignals := 0 } : TimerState).running = false ∧
    (0 : ℤ) < 3 ∧ (3 : ℤ) ≤ 5 ∧
    (tick (on_start_pause (.num 23) (.num 59) (.num 59) { total := 5, remaining := 3, running := false, finished := false, finishSignals := 0 }).1).remaining = 3 - 1 :=
  ⟨by decide, by decide, by decide,
   (resume_continues_from_paused_remaining
      { total := 5, remaining := 3, running := false, finished := false, finishSignals := 0 }
      (.num 23) (.num 59) (.num 59) (by decide) (by decide) (by decide)).2.2.2⟩

/-- C5 counterexample: a non-numeric hours field with minutes "5" makes
`_parse_time` return 0, not 300 — the single `try` spans all three field
conversions, so one bad field zeroes the whole total. -/
theorem parse_time_not_per_field_counterexample :
    parse_time .malformed (.num 5) (.num 0) = 0 ∧
    parse_time .malformed (.num 5) (.num 0) ≠ 300 :=
  ⟨by decide, by decide⟩

/-- C5 (amended): numeric fields are clamped independently (hours to
[0,23], minutes and seconds to [0,59]) and an empty field counts as 0 for
that field alone, but a non-numeric field in any position makes the entire
parse return total 0, regardless of the other fields. -/
theorem parse_time_clamps_or_zero :
    (∀ h m s : ℤ, parse_time (.num h) (.num m) (.num s) =
      clamp 23 h * 3600 + clamp 59 m * 60 + clamp 59 s) ∧
    (∀ mf sf : SpinField, parse_time .empty mf sf = parse_time (.num 0) mf sf) ∧
    (∀ hf sf : SpinField, parse_time hf .empty sf = parse_time hf (.num 0) sf) ∧
    (∀ hf mf : SpinField, parse_time hf mf .empty = parse_time hf mf (.num 0)) ∧
    (∀ mf sf : SpinField, parse_time .malformed mf sf = 0) ∧
    (∀ hf sf : SpinField, parse_time hf .malformed sf = 0) ∧
    (∀ hf mf : SpinField, parse_time hf mf .malformed = 0) := by
  refine ⟨fun h m s => rfl, ?_, ?_, ?_, ?_, ?_, ?_⟩ <;>
    intro a b <;> cases a <;> cases b <;> rfl

/-- C6: pressing Start from a state with no countdown in progress
(`remaining = 0`, not running) while the spinboxes resolve to total 0 shows
the "No time set" warning dialog and performs no state mutation at all. -/
theorem start_with_zero_total_warns_no_mutation (s : TimerState)
    (hf mf sf : SpinField) (hrun : s.running = false) (hrem : s.remaining = 0)
    (hzero : parse_time hf mf sf = 0) :
    on_start_pause hf mf sf s = (s, true) := by
  simp [on_start_pause, hrun, hrem, hzero]

/-- C6 witness: all-zero spinboxes pressed from the initial state. -/
theorem start_with_zero_total_warns_no_mutation_witness :
    initState.running = false ∧ initState.remaining = 0 ∧
    parse_time (.num 0) (.num 0) (.num 0) = 0 ∧
    on_start_pause (.num 0) (.num 0) (.num 0) initState = (initState, true) :=
  ⟨by decide, by decide, by decide,
   start_with_zero_total_warns_no_mutation initState (.num 0) (.num 0) (.num 0)
     (by decide) (by decide) (by decide)⟩

/-- C7: for in-range numeric inputs whose total is positive, Start from a
fresh state (not running, remaining 0) sets
`remaining = total = h*3600 + m*60 + s` and status Running. -/
theorem configure_start_sets_remaining_total (h m sec : ℤ) (t : TimerState)
    (hh0 : 0 ≤ h) (hh1 : h ≤ 23) (hm0 : 0 ≤ m) (hm1 : m ≤ 59)
    (hs0 : 0 ≤ sec) (hs1 : sec ≤ 59)
    (hpos : 0 < h * 3600 + m * 60 + sec)
    (hrun : t.running = false) (hrem : t.remaining = 0) :
    (on_start_pause (.num h) (.num m) (.num sec) t).1.remaining = h * 3600 + m * 60 + sec ∧
    (on_start_pause (.num h) (.num m) (.num sec) t).1.total = h * 3600 + m * 60 + sec ∧
    status (on_start_pause (.num h) (.num m) (.num sec) t).1 = .Running := by
  have hparse : parse_time (.num h) (.num m) (.num sec) = h * 3600 + m * 60 + sec := by
    simp only [parse_time, SpinField.toInt, clamp]
    rw [min_eq_left hh1, max_eq_right hh0, min_eq_left hm1, max_eq_right hm0,
      min_eq_left hs1, max_eq_right hs0]
  have hstate : (on_start_pause (.num h) (.num m) (.num sec) t).1 =
      { t with total := h * 3600 + m * 60 + sec, remaining := h * 3600 + m * 60 + sec, running := true, finished := false } := by
    simp [on_start_pause, hrun, hrem, hparse, hpos.ne']
  exact ⟨by rw [hstate], by rw [hstate], by rw [hstate]; rfl⟩

/-- C7 witness: h = 0, m = 0, s = 5 from the initial state. -/
theorem configure_start_sets_remaining_total_witness :
    (0 : ℤ) < 0 * 3600 + 0 * 60 + 5 ∧
    initState.running = false ∧ initState.remaining = 0 ∧
    (on_start_pause (.num 0) (.num 0) (.num 5) initState).1.remaining = 0 * 3600 + 0 * 60 + 5 ∧
    status (on_start_pause (.num 0) (.num 0) (.num 5) initState).1 = .Running :=
  ⟨by decide, by decide, by decide,
   (configure_start_sets_remaining_total 0 0 5 initState (by decide) (by decide)
      (by decide) (by decide) (by decide) (by decide) (by decide) (by decide)
      (by decide)).1,
   (configure_start_sets_remaining_total 0 0 5 initState (by decide) (by decide)
      (by decide) (by decide) (by decide) (by decide) (by decide) (by decide)
      (by decide)).2.2⟩

/-- C8: Reset from any state whatsoever returns to Idle with both counters
0, and the tick loop is inert afterwards (any number of elapsed time units
changes nothing). -/
theorem reset_returns_idle (s : TimerState) :
    (on_reset s).remaining = 0 ∧ (on_reset s).total = 0 ∧
    status (on_reset s) = .Idle ∧
    (∀ n : ℕ, tick^[n] (on_reset s) = on_reset s) :=
  ⟨rfl, rfl, rfl, fun n => tick_iterate_not_running rfl n⟩

theorem update_dots_lit_thirty : update_dots_lit 30 120 = 2 := by
  have h30 : ((30 : ℤ) : ℚ) / ((120 : ℤ) : ℚ) * ((NUM_DOTS : ℤ) : ℚ) =
      ((5 : ℤ) : ℚ) / ((2 : ℤ) : ℚ) := by
    norm_num [NUM_DOTS]
  rw [update_dots_lit, if_neg (by norm_num : (120 : ℤ) ≠ 0), h30,
    ← roundHalfEven_eq 5 2 (by norm_num)]
  decide

/-- C9 counterexample: at `remaining = 30`, `total = 120` the exact ratio
times 10 is 2.5 and Python's `round` — half to even — gives 2 lit dots,
not 3 as claimed. -/
theorem dots_tie_break_counterexample :
    update_dots_lit 30 120 = 2 ∧ update_dots_lit 30 120 ≠ 3 :=
  ⟨update_dots_lit_thirty, by rw [update_dots_lit_thirty]; decide⟩

/-- C9 (amended): the number of lit dots is `round((remaining/total)*10)`
when `total ≠ 0` and 0 when `total = 0`, where `round` is Python's — ties
go to the even neighbour — so `remaining = 30, total = 120` gives 2, not
3. -/
theorem update_dots_round_half_even (r t : ℤ) (ht : t ≠ 0) :
    update_dots_lit r t = pythonRound ((r : ℚ) / (t : ℚ) * 10) ∧
    update_dots_lit r 0 = 0 ∧
    update_dots_lit 30 120 = 2 := by
  refine ⟨?_, rfl, update_dots_lit_thirty⟩
  rw [update_dots_lit, if_neg ht]
  norm_num [NUM_DOTS]

/-- C9 witness: the amended formula at remaining 30, total 120. -/
theorem update_dots_round_half_even_witness :
    (120 : ℤ) ≠ 0 ∧
    update_dots_lit 30 120 = pythonRound ((30 : ℚ) / (120 : ℚ) * 10) :=
  ⟨by decide, (update_dots_round_half_even 30 120 (by decide)).1⟩

/-- C10: the Start/Pause toggle tells a fresh start from a resume solely by
`remaining == 0`. From any stopped state with `remaining = 0` — initial,
after reset, or right after a natural finish, so no reset is needed in
between — Start re-reads the spinboxes and installs the parsed total as
both counters; from any stopped state with `remaining > 0` the result is
the same for every spinbox content, keeping the stored `remaining` and
`total`. -/
theorem start_toggle_branches_on_remaining_zero (s1 s2 : TimerState)
    (hf mf sf hf2 mf2 sf2 : SpinField)
    (h1run : s1.running = false) (h1rem : s1.remaining = 0)
    (h1parse : parse_time hf mf sf ≠ 0)
    (h2run : s2.running = false) (h2pos : 0 < s2.remaining) :
    ((on_start_pause hf mf sf s1).1.total = parse_time hf mf sf ∧
     (on_start_pause hf mf sf s1).1.remaining = parse_time hf mf sf ∧
     status (on_start_pause hf mf sf s1).1 = .Running) ∧
    (on_start_pause hf2 mf2 sf2 s2 = on_start_pause hf mf sf s2 ∧
     (on_start_pause hf2 mf2 sf2 s2).1.remaining = s2.remaining ∧
     (on_start_pause hf2 mf2 sf2 s2).1.total = s2.total ∧
     status (on_start_pause hf2 mf2 sf2 s2).1 = .Running) := by
  constructor
  · have hs1 : (on_start_pause hf mf sf s1).1 =
        { s1 with total := parse_time hf mf sf, remaining := parse_time hf mf sf, running := true, finished := false } := by
      simp [on_start_pause, h1run, h1rem, h1parse]
    exact ⟨by rw [hs1], by rw [hs1], by rw [hs1]; rfl⟩
  · have hs2 : ∀ a b c : SpinField, on_start_pause a b c s2 =
        ({ s2 with running := true, finished := false }, false) := by
      intro a b c
      simp [on_start_pause, h2run, h2pos.ne']
    rw [hs2 hf2 mf2 sf2, hs2 hf mf sf]
    exact ⟨rfl, rfl, rfl, rfl⟩

/-- C10 witness: a state just after a natural finish (so Start works with
no intervening reset) against a paused state, with differing spinboxes. -/
theorem start_toggle_branches_on_remaining_zero_witness :
    ({ total := 5, remaining := 0, running := false, finished := true, finishSignals := 1 } : TimerState).running = false ∧
    ({ total := 5, remaining := 0, running := false, finished := true, finishSignals := 1 } : TimerState).remaining = 0 ∧
    parse_time (.num 0) (.num 1) (.num 30) ≠ 0 ∧
    ({ total := 5, remaining := 3, running := false, finished := false, finishSignals := 0 } : TimerState).running = false ∧
    (0 : ℤ) < ({ total := 5, remaining := 3, running := false, finished := false, finishSignals := 0 } : TimerState).remaining ∧
    (on_start_pause (.num 0) (.num 1) (.num 30) { total := 5, remaining := 0, running := false, finished := true, finishSignals := 1 }).1.total = parse_time (.num 0) (.num 1) (.num 30) ∧
    on_start_pause .malformed .empty (.num 7) { total := 5, remaining := 3, running := false, finished := false, finishSignals := 0 } = on_start_pause (.num 0) (.num 1) (.num 30) { total := 5, remaining := 3, running := false, finished := false, finishSignals := 0 } :=
  ⟨by decide, by decide, by decide, by decide, by decide,
   (start_toggle_branches_on_remaining_zero
      { total := 5, remaining := 0, running := false, finished := true, finishSignals := 1 }
      { total := 5, remaining := 3, running := false, finished := false, finishSignals := 0 }
      (.num 0) (.num 1) (.num 30) .malformed .empty (.num 7)
      (by decide) (by decide) (by decide) (by decide) (by decide)).1.1,
   (start_toggle_branches_on_remaining_zero
      { total := 5, remaining := 0, running := false, finished := true, finishSignals := 1 }
      { total := 5, remaining := 3, running := false, finished := false, finishSignals := 0 }
      (.num 0) (.num 1) (.num 30) .malformed .empty (.num 7)
      (by decide) (by decide) (by decide) (by decide) (by decide)).2.1⟩
